import Mathlib

/-!
Verification of the `gcs-export` utility of GoogleCalendarScheduler.

Shallow embedding of `src/bin/gcs-export.cpp`, a single-pass export utility:
it reads `Latitude`, `Longitude`, `TimeZone` from the FPP settings store,
parses the coordinates with C `atof`, loads a locale JSON file best-effort,
validates, writes one JSON document to a fixed path and exits 0/1/2.

Modelling choices:
* JSON numbers (C `double`) are modelled as `ℚ`.  The coordinate strings in
  this domain are plain decimal numerals, for which C `atof` is exact
  rational evaluation followed by rounding to double; the claims under
  study compare parsed values with `0.0` and with the numeral's value, and
  both comparisons are faithfully mirrored over `ℚ`.  The hexadecimal and
  infinity/NaN keyword forms accepted by `strtod` have no `ℚ` denotation
  and are outside this model; the theorems that evaluate the parse on a
  class of inputs (C5, C9) therefore carry hypotheses that exclude those
  forms from their input class, so on every input they admit the model
  agrees with `atof` exactly.
* A `Json::Value` object is a `std::map` keyed by field name; we model the
  document as an association list with insert-or-update (`setField`),
  which has the same lookup semantics as `operator[]` assignment.
* The effectful environment of `main` (the settings store, the locale file,
  the writability of the output path, the previous content of the output
  file) is passed in as a `RunInput`; `run` returns the document, the exit
  code, the stderr lines, the final output-file content and the ordered
  trace of collaborator calls that `main` performs.
-/

set_option autoImplicit false

namespace GCSExport

/-! ## JSON values and documents -/

/-- JSON values as produced by jsoncpp, with numbers modelled as `ℚ`. -/
inductive JVal where
  | null : JVal
  | bool : Bool → JVal
  | num : ℚ → JVal
  | str : String → JVal
  | arr : List JVal → JVal
  | obj : List (String × JVal) → JVal

/-- A JSON object document: association list of fields.  `Json::Value`
objects are key-sorted maps, so field order carries no meaning; we keep
insertion order. -/
abbrev Doc := List (String × JVal)

/-- Models `root[k] = v` on a `Json::Value` object: update the binding of
`k` in place if present, otherwise append it. -/
def setField : Doc → String → JVal → Doc
  | [], k, v => [(k, v)]
  | p :: d, k, v => if p.1 = k then (k, v) :: d else p :: setField d k v

/-- Lookup of a field in the document. -/
def getField : Doc → String → Option JVal
  | [], _ => none
  | p :: d, k => if p.1 = k then some p.2 else getField d k

/-! ## C `atof` on decimal numerals, over `ℚ` -/

/-- C `isspace` on the default locale. -/
def isCSpace (c : Char) : Bool :=
  c = ' ' || c = '\t' || c = '\n' || c = '\x0b' || c = '\x0c' || c = '\r'

/-- Skip leading whitespace, as `strtod` does. -/
def skipWs : List Char → List Char
  | [] => []
  | c :: cs => if isCSpace c then skipWs cs else c :: cs

/-- Consume an optional sign; returns (isNegative, rest). -/
def splitSign : List Char → Bool × List Char
  | [] => (false, [])
  | c :: cs =>
    if c = '-' then (true, cs)
    else if c = '+' then (false, cs)
    else (false, c :: cs)

/-- Value of a digit string read in base 10. -/
def digitsVal (ds : List Char) : ℕ :=
  ds.foldl (fun a c => 10 * a + (c.toNat - 48)) 0

/-- Split the mantissa: integer digits, then an optional point followed by
fraction digits; returns (intDigits, fracDigits, rest). -/
def mantissaDigits (cs : List Char) : List Char × List Char × List Char :=
  let ip := cs.takeWhile Char.isDigit
  let cs2 := cs.dropWhile Char.isDigit
  match cs2 with
  | c :: rest =>
    if c = '.' then (ip, rest.takeWhile Char.isDigit, rest.dropWhile Char.isDigit)
    else (ip, [], cs2)
  | [] => (ip, [], [])

/-- Optional exponent part: `e`/`E`, optional sign, digits; an exponent
with no digits contributes nothing (as in `strtod`). -/
def expVal : List Char → ℤ
  | [] => 0
  | c :: rest =>
    if c = 'e' ∨ c = 'E' then
      let sg := splitSign rest
      let eds := sg.2.takeWhile Char.isDigit
      if eds = [] then 0
      else if sg.1 then -(digitsVal eds : ℤ) else (digitsVal eds : ℤ)
    else 0

/-- C `atof` on decimal forms: skip whitespace, optional sign, digits with
an optional decimal point, optional exponent; trailing characters are
ignored; if no mantissa digit is found the result is `0`.  The `strtod`
hexadecimal (`0x...`) and infinity/NaN keyword forms are not represented
(no `ℚ` denotation); theorems quantifying over parse inputs carry
hypotheses keeping those forms out of their domain. -/
def atofQ (s : String) : ℚ :=
  let cs0 := skipWs s.data
  let sg := splitSign cs0
  let parts := mantissaDigits sg.2
  let ip := parts.1
  let fp := parts.2.1
  let rest := parts.2.2
  if ip = [] ∧ fp = [] then 0
  else
    let mant : ℚ := (digitsVal ip : ℚ) + (digitsVal fp : ℚ) / 10 ^ fp.length
    let e : ℤ := expVal rest
    let mag : ℚ := if 0 ≤ e then mant * 10 ^ e.toNat else mant / 10 ^ (-e).toNat
    if sg.1 then -mag else mag

/-! ## Fixed paths and diagnostic messages (from the source) -/

def outputPath : String :=
  "/home/fpp/media/plugins/GoogleCalendarScheduler/runtime/fpp-env.json"

def localePath : String := "/home/fpp/media/config/locale.json"

def coordErrMsg : String :=
  "Latitude/Longitude not present (or zero) in FPP settings."

def tzErrMsg : String := "Timezone not present in FPP settings."

/-! ## The run environment -/

/-- Collaborator calls `main` can make, in order of occurrence.  The
settings-loader initialization call (`LoadSettings`) is part of the host
interface and appears here so that its presence or absence in a run's
trace can be stated. -/
inductive Event where
  | loadSettings : String → Event
  | getSetting : String → Event
  | loadLocaleFile : String → Event
  | openOutput : String → Event
  deriving DecidableEq

/-- The environment of one invocation of `main`. -/
structure RunInput where
  /-- The host settings store: `getSetting(key)`; absent keys yield `""`. -/
  getSetting : String → String
  /-- The JSON library's parser (black box per the spec), as applied by
  `Json::parseFromStream` to the locale file's text. -/
  parse : String → Except String JVal
  /-- Content of `/home/fpp/media/config/locale.json`; `none` when the
  file cannot be opened. -/
  localeFile : Option String
  /-- Whether `std::ofstream out(OUTPUT_PATH)` succeeds. -/
  canOpenOutput : Bool
  /-- Output-file content before the run (`none`: no file). -/
  prevOutput : Option Doc

/-- Everything one invocation of `main` produces. -/
structure RunResult where
  doc : Doc
  exitCode : ℕ
  stderr : List String
  outputFile : Option Doc
  written : Bool
  trace : List Event

/-- Embeds `loadJsonFile` (src/bin/gcs-export.cpp:22-34): open the file,
fail with "Unable to open <path>" if that is impossible, otherwise parse. -/
def loadJsonFile (parse : String → Except String JVal)
    (content : Option String) (path : String) : Except String JVal :=
  match content with
  | none => Except.error ("Unable to open " ++ path)
  | some txt => parse txt

/-- The local `latStr` of `main`. -/
def latStrOf (i : RunInput) : String := i.getSetting "Latitude"

/-- The local `lonStr` of `main`. -/
def lonStrOf (i : RunInput) : String := i.getSetting "Longitude"

/-- The local `tz` of `main`. -/
def tzOf (i : RunInput) : String := i.getSetting "TimeZone"

/-- The local `lat` of `main`: `latStr.empty() ? 0.0 : atof(latStr.c_str())`. -/
def latOf (i : RunInput) : ℚ := if latStrOf i = "" then 0 else atofQ (latStrOf i)

/-- The local `lon` of `main`. -/
def lonOf (i : RunInput) : ℚ := if lonStrOf i = "" then 0 else atofQ (lonStrOf i)

/-- The final value of `ok` in `main`. -/
def okOf (i : RunInput) : Bool :=
  if latOf i = 0 ∨ lonOf i = 0 then false
  else if tzOf i = "" then false
  else true

/-- Embeds `main` (src/bin/gcs-export.cpp:36-108), mirroring its statement
order: build the header fields, read and parse the three settings, load
the locale file best-effort, validate (each failing check overwrites
`root["error"]` and warns), then open the output path — on failure print
an error and exit 2 leaving the file as it was, otherwise write the
document and exit by `ok`. -/
def run (i : RunInput) : RunResult :=
  let d1 := setField [] "schemaVersion" (JVal.num 1)
  let d2 := setField d1 "source" (JVal.str "gcs-export")
  let tz := tzOf i
  let lat := latOf i
  let lon := lonOf i
  let d3 := setField d2 "latitude" (JVal.num lat)
  let d4 := setField d3 "longitude" (JVal.num lon)
  let d5 := setField d4 "timezone" (JVal.str tz)
  let lres := loadJsonFile i.parse i.localeFile localePath
  let d6 := match lres with
    | Except.ok v => setField d5 "rawLocale" v
    | Except.error e =>
        setField (setField d5 "rawLocale" (JVal.obj [])) "localeError" (JVal.str e)
  let errs1 : List String := match lres with
    | Except.ok _ => []
    | Except.error e => ["WARN: " ++ e]
  let d7 := if lat = 0 ∨ lon = 0 then setField d6 "error" (JVal.str coordErrMsg) else d6
  let errs2 := if lat = 0 ∨ lon = 0 then errs1 ++ ["WARN: " ++ coordErrMsg] else errs1
  let d8 := if tz = "" then setField d7 "error" (JVal.str tzErrMsg) else d7
  let errs3 := if tz = "" then errs2 ++ ["WARN: " ++ tzErrMsg] else errs2
  let ok := okOf i
  let d9 := setField d8 "ok" (JVal.bool ok)
  let tr := [Event.getSetting "Latitude", Event.getSetting "Longitude",
             Event.getSetting "TimeZone", Event.loadLocaleFile localePath,
             Event.openOutput outputPath]
  if i.canOpenOutput then
    { doc := d9, exitCode := if ok then 0 else 1, stderr := errs3,
      outputFile := some d9, written := true, trace := tr }
  else
    { doc := d9, exitCode := 2,
      stderr := errs3 ++ ["ERROR: Unable to write " ++ outputPath],
      outputFile := i.prevOutput, written := false, trace := tr }

/-! ## Characterization of the run -/

/-- The `rawLocale`/`localeError` fields contributed by step 3 of `main`. -/
def localePart (lres : Except String JVal) : Doc :=
  match lres with
  | Except.ok v => [("rawLocale", v)]
  | Except.error e => [("rawLocale", JVal.obj []), ("localeError", JVal.str e)]

/-- The `error` field contributed by the validation step: both checks
assign the same single field, so when both fire the timezone message is
the one that survives. -/
def errPart (i : RunInput) : Doc :=
  if latOf i = 0 ∨ lonOf i = 0 then
    [("error", JVal.str (if tzOf i = "" then tzErrMsg else coordErrMsg))]
  else if tzOf i = "" then [("error", JVal.str tzErrMsg)] else []

/-- The complete document `main` assembles. -/
def docOf (i : RunInput) : Doc :=
  [("schemaVersion", JVal.num 1), ("source", JVal.str "gcs-export"),
   ("latitude", JVal.num (latOf i)), ("longitude", JVal.num (lonOf i)),
   ("timezone", JVal.str (tzOf i))]
  ++ localePart (loadJsonFile i.parse i.localeFile localePath)
  ++ errPart i ++ [("ok", JVal.bool (okOf i))]

/-- The stderr lines `main` emits, in order. -/
def stderrOf (i : RunInput) : List String :=
  (match loadJsonFile i.parse i.localeFile localePath with
   | Except.ok _ => []
   | Except.error e => ["WARN: " ++ e])
  ++ (if latOf i = 0 ∨ lonOf i = 0 then ["WARN: " ++ coordErrMsg] else [])
  ++ (if tzOf i = "" then ["WARN: " ++ tzErrMsg] else [])
  ++ (if i.canOpenOutput then [] else ["ERROR: Unable to write " ++ outputPath])

theorem run_doc (i : RunInput) : (run i).doc = docOf i := by
  unfold run docOf localePart errPart okOf
  cases hco : i.canOpenOutput <;>
    cases h : loadJsonFile i.parse i.localeFile localePath <;>
      by_cases hc : latOf i = 0 ∨ lonOf i = 0 <;>
        by_cases ht : tzOf i = "" <;>
          simp [h, hc, ht, setField]

theorem run_stderr (i : RunInput) : (run i).stderr = stderrOf i := by
  unfold run stderrOf
  cases hco : i.canOpenOutput <;>
    cases h : loadJsonFile i.parse i.localeFile localePath <;>
      by_cases hc : latOf i = 0 ∨ lonOf i = 0 <;>
        by_cases ht : tzOf i = "" <;>
          simp [h, hc, ht]

theorem run_exitCode (i : RunInput) :
    (run i).exitCode = (if i.canOpenOutput then (if okOf i then 0 else 1) else 2) := by
  unfold run
  cases hco : i.canOpenOutput <;> simp

theorem run_written (i : RunInput) : (run i).written = i.canOpenOutput := by
  unfold run
  cases hco : i.canOpenOutput <;> simp

theorem run_outputFile (i : RunInput) :
    (run i).outputFile = (if i.canOpenOutput then some (docOf i) else i.prevOutput) := by
  rw [← run_doc]
  unfold run
  cases hco : i.canOpenOutput <;> simp

theorem run_trace (i : RunInput) :
    (run i).trace = [Event.getSetting "Latitude", Event.getSetting "Longitude",
      Event.getSetting "TimeZone", Event.loadLocaleFile localePath,
      Event.openOutput outputPath] := by
  unfold run
  cases hco : i.canOpenOutput <;> simp

/-! ## Field lookups in the assembled document -/

theorem getField_docOf_latitude (i : RunInput) :
    getField (docOf i) "latitude" = some (JVal.num (latOf i)) := by
  unfold docOf
  simp [getField]

theorem getField_docOf_longitude (i : RunInput) :
    getField (docOf i) "longitude" = some (JVal.num (lonOf i)) := by
  unfold docOf
  simp [getField]

theorem getField_docOf_timezone (i : RunInput) :
    getField (docOf i) "timezone" = some (JVal.str (tzOf i)) := by
  unfold docOf
  simp [getField]

theorem getField_docOf_ok (i : RunInput) :
    getField (docOf i) "ok" = some (JVal.bool (okOf i)) := by
  unfold docOf localePart errPart
  cases h : loadJsonFile i.parse i.localeFile localePath <;>
    by_cases hc : latOf i = 0 ∨ lonOf i = 0 <;>
      by_cases ht : tzOf i = "" <;> simp [hc, ht, getField]

theorem getField_docOf_rawLocale (i : RunInput) :
    getField (docOf i) "rawLocale" =
      some (match loadJsonFile i.parse i.localeFile localePath with
            | Except.ok v => v
            | Except.error _ => JVal.obj []) := by
  unfold docOf localePart
  cases h : loadJsonFile i.parse i.localeFile localePath <;> simp [getField]

theorem getField_docOf_localeError (i : RunInput) (e : String)
    (h : loadJsonFile i.parse i.localeFile localePath = Except.error e) :
    getField (docOf i) "localeError" = some (JVal.str e) := by
  unfold docOf localePart
  rw [h]
  simp [getField]

theorem getField_docOf_error (i : RunInput) :
    getField (docOf i) "error" =
      (if latOf i = 0 ∨ lonOf i = 0 then
         some (JVal.str (if tzOf i = "" then tzErrMsg else coordErrMsg))
       else if tzOf i = "" then some (JVal.str tzErrMsg) else none) := by
  unfold docOf localePart errPart
  cases h : loadJsonFile i.parse i.localeFile localePath <;>
    by_cases hc : latOf i = 0 ∨ lonOf i = 0 <;>
      by_cases ht : tzOf i = "" <;> simp [hc, ht, getField]

/-! ## Analysis of the `atof` model -/

theorem skipWs_subset : ∀ (l : List Char), ∀ c ∈ skipWs l, c ∈ l
  | [] => by simp [skipWs]
  | a :: l => by
    intro c hc
    unfold skipWs at hc
    by_cases ha : isCSpace a
    · rw [if_pos ha] at hc
      exact List.mem_cons_of_mem _ (skipWs_subset l c hc)
    · rw [if_neg ha] at hc
      exact hc

theorem splitSign_snd_subset (l : List Char) : ∀ c ∈ (splitSign l).2, c ∈ l := by
  cases l with
  | nil => simp [splitSign]
  | cons a l =>
    intro c hc
    simp only [splitSign] at hc
    split_ifs at hc <;>
      first
        | exact List.mem_cons_of_mem _ hc
        | exact hc

theorem takeWhile_isDigit_eq_nil {l : List Char}
    (h : ∀ c ∈ l, c.isDigit = false) : l.takeWhile Char.isDigit = [] := by
  cases l with
  | nil => rfl
  | cons c cs => simp [List.takeWhile_cons, h c (List.mem_cons_self c cs)]

theorem dropWhile_isDigit_eq_self {l : List Char}
    (h : ∀ c ∈ l, c.isDigit = false) : l.dropWhile Char.isDigit = l := by
  cases l with
  | nil => rfl
  | cons c cs => simp [List.dropWhile_cons, h c (List.mem_cons_self c cs)]

theorem mantissaDigits_no_digits {l : List Char}
    (h : ∀ c ∈ l, c.isDigit = false) :
    (mantissaDigits l).1 = [] ∧ (mantissaDigits l).2.1 = [] := by
  unfold mantissaDigits
  rw [takeWhile_isDigit_eq_nil h, dropWhile_isDigit_eq_self h]
  cases l with
  | nil => simp
  | cons c rest =>
    by_cases hdot : c = '.'
    · have : ∀ x ∈ rest, x.isDigit = false :=
        fun x hx => h x (List.mem_cons_of_mem _ hx)
      simp [hdot, takeWhile_isDigit_eq_nil this]
    · simp [hdot]

/-- Strings without a single digit character parse to `0` — there is no
error path. -/
theorem atofQ_eq_zero_of_no_digits (s : String)
    (h : ∀ c ∈ s.data, c.isDigit = false) : atofQ s = 0 := by
  have h2 : ∀ c ∈ (splitSign (skipWs s.data)).2, c.isDigit = false :=
    fun c hc => h c (skipWs_subset _ c (splitSign_snd_subset _ c hc))
  obtain ⟨hip, hfp⟩ := mantissaDigits_no_digits h2
  simp only [atofQ]
  rw [hip, hfp]
  simp

theorem takeWhile_append_isDigit {xs ys : List Char}
    (hxs : ∀ c ∈ xs, c.isDigit = true)
    (hys : ∀ c ∈ ys.head?, c.isDigit = false) :
    (xs ++ ys).takeWhile Char.isDigit = xs := by
  induction xs with
  | nil =>
    cases ys with
    | nil => rfl
    | cons b bs => simp [List.takeWhile_cons, hys b rfl]
  | cons a asl ih =>
    have ha := hxs a (List.mem_cons_self a asl)
    simp only [List.cons_append, List.takeWhile_cons, ha]
    simp [ih (fun c hc => hxs c (List.mem_cons_of_mem _ hc))]

theorem dropWhile_append_isDigit {xs ys : List Char}
    (hxs : ∀ c ∈ xs, c.isDigit = true)
    (hys : ∀ c ∈ ys.head?, c.isDigit = false) :
    (xs ++ ys).dropWhile Char.isDigit = ys := by
  induction xs with
  | nil =>
    cases ys with
    | nil => rfl
    | cons b bs => simp [List.dropWhile_cons, hys b rfl]
  | cons a asl ih =>
    have ha := hxs a (List.mem_cons_self a asl)
    simp only [List.cons_append, List.dropWhile_cons, ha]
    simpa using ih (fun c hc => hxs c (List.mem_cons_of_mem _ hc))

theorem isCSpace_eq_false_of_isDigit {c : Char} (h : c.isDigit = true) :
    isCSpace c = false := by
  by_contra hne
  have hcs : isCSpace c = true := by revert hne; cases isCSpace c <;> simp
  simp only [isCSpace, Bool.or_eq_true, decide_eq_true_eq] at hcs
  rcases hcs with ((((h1 | h1) | h1) | h1) | h1) | h1 <;> subst h1 <;>
    exact absurd h (by decide)

theorem skipWs_cons_of_not_space {c : Char} {l : List Char}
    (h : isCSpace c = false) : skipWs (c :: l) = c :: l := by
  simp [skipWs, h]

/-- On a list starting with digits, then an optional `.`-led fraction,
then characters that can extend neither the mantissa nor start an
exponent, the mantissa/exponent scan finds exactly the numeral. -/
theorem mantissa_scan_numeral (ip fp dotp t : List Char)
    (hip : ∀ c ∈ ip, c.isDigit = true)
    (hfp : ∀ c ∈ fp, c.isDigit = true)
    (hdot : (dotp = [] ∧ fp = []) ∨ dotp = '.' :: fp)
    (ht : ∀ c ∈ t.head?, c.isDigit = false ∧ c ≠ '.' ∧ c ≠ 'e' ∧ c ≠ 'E') :
    (mantissaDigits (ip ++ dotp ++ t)).1 = ip ∧
    (mantissaDigits (ip ++ dotp ++ t)).2.1 = fp ∧
    expVal (mantissaDigits (ip ++ dotp ++ t)).2.2 = 0 := by
  have htd : ∀ c ∈ t.head?, c.isDigit = false := fun c hc => (ht c hc).1
  rcases hdot with ⟨hd, hf⟩ | hd
  · subst hd hf
    have h1 : (ip ++ ([] : List Char) ++ t).takeWhile Char.isDigit = ip := by
      rw [List.append_nil]; exact takeWhile_append_isDigit hip htd
    have h2 : (ip ++ ([] : List Char) ++ t).dropWhile Char.isDigit = t := by
      rw [List.append_nil]; exact dropWhile_append_isDigit hip htd
    unfold mantissaDigits
    rw [h1, h2]
    cases t with
    | nil => exact ⟨rfl, rfl, rfl⟩
    | cons c rest =>
      obtain ⟨_, hcdot, hce, hcE⟩ := ht c rfl
      simp only [hcdot, if_false]
      refine ⟨trivial, trivial, ?_⟩
      simp [expVal, hce, hcE]
  · subst hd
    have hassoc : ip ++ ('.' :: fp) ++ t = ip ++ ('.' :: (fp ++ t)) := by
      simp
    have hdothead : ∀ c ∈ ('.' :: (fp ++ t)).head?, c.isDigit = false := by
      intro c hc
      simp only [List.head?_cons, Option.mem_def, Option.some.injEq] at hc
      subst hc
      decide
    have h1 : (ip ++ ('.' :: fp) ++ t).takeWhile Char.isDigit = ip := by
      rw [hassoc]; exact takeWhile_append_isDigit hip hdothead
    have h2 : (ip ++ ('.' :: fp) ++ t).dropWhile Char.isDigit = '.' :: (fp ++ t) := by
      rw [hassoc]; exact dropWhile_append_isDigit hip hdothead
    unfold mantissaDigits
    rw [h1, h2]
    simp only [if_pos rfl, reduceIte]
    refine ⟨trivial, takeWhile_append_isDigit hfp htd, ?_⟩
    rw [dropWhile_append_isDigit hfp htd]
    cases t with
    | nil => rfl
    | cons c rest =>
      obtain ⟨_, _, hce, hcE⟩ := ht c rfl
      simp [expVal, hce, hcE]

theorem data_mk (l : List Char) : (String.mk l).data = l := rfl

/-- C `atof` of `[sign] digits [. digits] garbage` is the signed value of
the numeral; the trailing characters are ignored. -/
theorem atofQ_numeral_trailing (sg ip fp dotp t : List Char)
    (hsg : sg = [] ∨ sg = ['+'] ∨ sg = ['-'])
    (hip : ∀ c ∈ ip, c.isDigit = true)
    (hfp : ∀ c ∈ fp, c.isDigit = true)
    (hdot : (dotp = [] ∧ fp = []) ∨ dotp = '.' :: fp)
    (hne : ip ≠ [] ∨ fp ≠ [])
    (ht : ∀ c ∈ t.head?, c.isDigit = false ∧ c ≠ '.' ∧ c ≠ 'e' ∧ c ≠ 'E') :
    atofQ (String.mk (sg ++ ip ++ dotp ++ t)) =
      (if sg = ['-'] then -1 else 1) *
        ((digitsVal ip : ℚ) + (digitsVal fp : ℚ) / 10 ^ fp.length) := by
  obtain ⟨hm1, hm2, hm3⟩ := mantissa_scan_numeral ip fp dotp t hip hfp hdot ht
  have hnboth : ¬(ip = [] ∧ fp = []) := by
    rcases hne with h | h <;> intro hb <;> [exact h hb.1; exact h hb.2]
  -- the first character after an (absent) sign is a digit or '.'
  have hheadm : ∀ c ∈ (ip ++ dotp ++ t).head?, isCSpace c = false ∧
      c ≠ '-' ∧ c ≠ '+' := by
    intro c hc
    cases ip with
    | nil =>
      rcases hdot with ⟨hd, hf⟩ | hd
      · exact absurd ⟨rfl, hf⟩ hnboth
      · subst hd
        simp only [List.nil_append, List.cons_append, List.head?_cons,
          Option.mem_def, Option.some.injEq] at hc
        subst hc
        exact ⟨by decide, by decide, by decide⟩
    | cons a as =>
      simp only [List.cons_append, List.head?_cons, Option.mem_def,
        Option.some.injEq] at hc
      have ha : a.isDigit = true := hip a (List.mem_cons_self a as)
      rcases hc with rfl
      refine ⟨isCSpace_eq_false_of_isDigit ha, ?_, ?_⟩ <;>
        rintro rfl <;> exact absurd ha (by decide)
  have hskip : skipWs (ip ++ dotp ++ t) = ip ++ dotp ++ t := by
    cases hm : ip ++ dotp ++ t with
    | nil => rfl
    | cons a as =>
      obtain ⟨hsp, _, _⟩ := hheadm a (by rw [hm]; rfl)
      exact skipWs_cons_of_not_space hsp
  have hsplit : splitSign (ip ++ dotp ++ t) = (false, ip ++ dotp ++ t) := by
    cases hm : ip ++ dotp ++ t with
    | nil => rfl
    | cons a as =>
      obtain ⟨_, hminus, hplus⟩ := hheadm a (by rw [hm]; rfl)
      simp only [splitSign]
      rw [if_neg (by simpa using hminus), if_neg (by simpa using hplus)]
  rcases hsg with hs | hs | hs <;> subst hs
  · -- no sign
    simp only [atofQ, data_mk, List.nil_append]
    rw [hskip, hsplit]
    simp only [hm1, hm2, hm3]
    rw [if_neg hnboth]
    simp
  · -- leading '+'
    have hsp : splitSign ('+' :: (ip ++ dotp ++ t)) = (false, ip ++ dotp ++ t) := by
      simp only [splitSign]
      rw [if_neg (show ('+' : Char) ≠ '-' by decide)]
      simp
    simp only [atofQ, data_mk, List.singleton_append, List.cons_append,
      List.nil_append]
    rw [skipWs_cons_of_not_space (by decide), hsp]
    simp only [hm1, hm2, hm3]
    rw [if_neg hnboth, if_neg (show ¬((['+'] : List Char) = ['-']) by decide)]
    simp
  · -- leading '-'
    have hsm : splitSign ('-' :: (ip ++ dotp ++ t)) = (true, ip ++ dotp ++ t) := by
      simp only [splitSign]
      simp
    simp only [atofQ, data_mk, List.singleton_append, List.cons_append,
      List.nil_append]
    rw [skipWs_cons_of_not_space (by decide), hsm]
    simp only [hm1, hm2, hm3]
    rw [if_neg hnboth]
    simp

/-! ## Concrete environments used to instantiate the claims -/

/-- All three settings empty; locale file readable and parsed as the empty object;
output path writable. -/
def allEmptyIn : RunInput :=
  { getSetting := fun _ => ""
    parse := fun _ => Except.ok (JVal.obj [])
    localeFile := some "obj"
    canOpenOutput := true
    prevOutput := none }

/-- Good settings, but the locale file cannot be opened. -/
def noLocaleIn : RunInput :=
  { getSetting := fun k => if k = "TimeZone" then "UTC" else "45.5"
    parse := fun _ => Except.ok JVal.null
    localeFile := none
    canOpenOutput := true
    prevOutput := none }

/-- Settings whose coordinate strings contain no digit at all. -/
def noDigitsIn : RunInput :=
  { getSetting := fun k =>
      if k = "TimeZone" then "UTC" else if k = "Latitude" then "abc" else "-.x"
    parse := fun _ => Except.ok (JVal.obj [])
    localeFile := some "obj"
    canOpenOutput := true
    prevOutput := none }

/-- Good settings, but the output path cannot be opened for writing. -/
def noWriteIn : RunInput :=
  { getSetting := fun k => if k = "TimeZone" then "America/Los_Angeles" else "45.5"
    parse := fun _ => Except.ok JVal.null
    localeFile := some "x"
    canOpenOutput := false
    prevOutput := some [("old", JVal.bool true)] }

/-- Fixed settings with one locale-provider value. -/
def locInA : RunInput :=
  { getSetting := fun k => if k = "TimeZone" then "UTC" else "45.5"
    parse := fun _ => Except.ok (JVal.str "A")
    localeFile := some "x"
    canOpenOutput := true
    prevOutput := none }

/-- The same settings as `locInA` with a different locale-provider value. -/
def locInB : RunInput :=
  { getSetting := fun k => if k = "TimeZone" then "UTC" else "45.5"
    parse := fun _ => Except.ok (JVal.str "B")
    localeFile := some "y"
    canOpenOutput := true
    prevOutput := none }

/-- Coordinate settings with a numeric head and trailing garbage. -/
def numIn : RunInput :=
  { getSetting := fun k => if k = "TimeZone" then "UTC" else "45.5abc"
    parse := fun _ => Except.ok (JVal.obj [])
    localeFile := some "obj"
    canOpenOutput := true
    prevOutput := none }

/-- Environment that agrees with `detInB` on the three keys `main` reads
and on the locale-load result, but differs elsewhere. -/
def detInA : RunInput :=
  { getSetting := fun k =>
      if k = "TimeZone" then "UTC" else if k = "Extra" then "x" else "1"
    parse := fun _ => Except.error "boom"
    localeFile := some "x"
    canOpenOutput := true
    prevOutput := none }

/-- Counterpart of `detInA`: same three settings and locale-load result,
different `Extra` setting, parser and previous output. -/
def detInB : RunInput :=
  { getSetting := fun k =>
      if k = "TimeZone" then "UTC" else if k = "Extra" then "y" else "1"
    parse := fun _ => Except.error "boom"
    localeFile := some "zzz"
    canOpenOutput := true
    prevOutput := some [] }

/-! ## The claims -/

/-- Claim C1: for every run that completes validation, the document's `ok`
field is `false` iff the parsed latitude is `0`, or the parsed longitude
is `0`, or the timezone string is empty; otherwise it is `true`. -/
theorem C1_ok_iff_invalid_inputs (i : RunInput) :
    (getField (run i).doc "ok" = some (JVal.bool false) ↔
      (latOf i = 0 ∨ lonOf i = 0 ∨ tzOf i = "")) ∧
    (getField (run i).doc "ok" = some (JVal.bool true) ↔
      ¬(latOf i = 0 ∨ lonOf i = 0 ∨ tzOf i = "")) := by
  rw [run_doc, getField_docOf_ok]
  unfold okOf
  by_cases hc : latOf i = 0 ∨ lonOf i = 0 <;> by_cases ht : tzOf i = "" <;>
    simp [hc, ht]

/-- Claim C2 (defect): when both validation checks fire, the document does
NOT keep both diagnostics — `root["error"]` is a single field; the
timezone message overwrites the coordinate message, which survives only on
stderr.  Evaluated at the all-empty-settings environment: the complete
document contains the timezone message and nowhere the coordinate one. -/
theorem C2_error_field_overwritten :
    (latOf allEmptyIn = 0 ∧ lonOf allEmptyIn = 0 ∧ tzOf allEmptyIn = "") ∧
    (run allEmptyIn).doc =
      [("schemaVersion", JVal.num 1), ("source", JVal.str "gcs-export"),
       ("latitude", JVal.num 0), ("longitude", JVal.num 0),
       ("timezone", JVal.str ""), ("rawLocale", JVal.obj []),
       ("error", JVal.str tzErrMsg), ("ok", JVal.bool false)] ∧
    getField (run allEmptyIn).doc "error" = some (JVal.str tzErrMsg) ∧
    getField (run allEmptyIn).doc "error" ≠ some (JVal.str coordErrMsg) ∧
    ("WARN: " ++ coordErrMsg) ∈ (run allEmptyIn).stderr ∧
    ("WARN: " ++ tzErrMsg) ∈ (run allEmptyIn).stderr := by
  refine ⟨⟨rfl, rfl, rfl⟩, rfl, rfl, ?_, by decide, by decide⟩
  have h : getField (run allEmptyIn).doc "error" = some (JVal.str tzErrMsg) := rfl
  rw [h]
  simp [tzErrMsg, coordErrMsg]

/-- Claim C3: the exit code is 0 when the document was written and `ok` is
true, 1 when written and `ok` is false, and 2 when the output could not be
opened, in which case nothing was written. -/
theorem C3_exit_code_policy (i : RunInput) :
    (run i).written = i.canOpenOutput ∧
    getField (run i).doc "ok" = some (JVal.bool (okOf i)) ∧
    (run i).exitCode =
      (if i.canOpenOutput then (if okOf i then 0 else 1) else 2) ∧
    (run i).outputFile =
      (if i.canOpenOutput then some ((run i).doc) else i.prevOutput) :=
  ⟨run_written i, by rw [run_doc]; exact getField_docOf_ok i, run_exitCode i,
   by rw [run_outputFile, run_doc]⟩

/-- Claim C4: `rawLocale` is always present; when the locale load fails the
document carries an empty-object `rawLocale` and the failure message in
`localeError`,
a warning is printed, and the failure never moves the exit code to the
fatal class (2 happens exactly when the output cannot be opened). -/
theorem C4_locale_best_effort (i : RunInput) :
    (∃ v, getField (run i).doc "rawLocale" = some v) ∧
    (∀ e, loadJsonFile i.parse i.localeFile localePath = Except.error e →
      getField (run i).doc "rawLocale" = some (JVal.obj []) ∧
      getField (run i).doc "localeError" = some (JVal.str e) ∧
      ("WARN: " ++ e) ∈ (run i).stderr ∧
      ((run i).exitCode = 2 ↔ i.canOpenOutput = false)) := by
  constructor
  · rw [run_doc]
    exact ⟨_, getField_docOf_rawLocale i⟩
  · intro e he
    refine ⟨?_, ?_, ?_, ?_⟩
    · rw [run_doc, getField_docOf_rawLocale i, he]
    · rw [run_doc]
      exact getField_docOf_localeError i e he
    · rw [run_stderr]
      unfold stderrOf
      rw [he]
      simp
    · rw [run_exitCode]
      cases hco : i.canOpenOutput <;> [skip; simp] <;>
        cases hok : okOf i <;> simp

theorem C4_witness :
    getField (run noLocaleIn).doc "rawLocale" = some (JVal.obj []) ∧
    getField (run noLocaleIn).doc "localeError" =
      some (JVal.str ("Unable to open " ++ localePath)) ∧
    ("WARN: " ++ ("Unable to open " ++ localePath)) ∈ (run noLocaleIn).stderr ∧
    ((run noLocaleIn).exitCode = 2 ↔ noLocaleIn.canOpenOutput = false) :=
  (C4_locale_best_effort noLocaleIn).2 ("Unable to open " ++ localePath) rfl

/-- Claim C5: parsing the coordinate settings is total — the empty string,
and any string with no numeric content, yields `0`; no input errors out
(the model functions are total by construction).  "No numeric content"
means `strtod` finds nothing convertible, formalized as: no digit
character anywhere (a digit is required by every decimal and hexadecimal
form — the latter needs the `0` of `0x`), and no infinity/NaN keyword at
the conversion point, i.e. the first character after whitespace and an
optional sign is not `i`/`I`/`n`/`N` (the only digitless forms `strtod`
converts, which real `atof` maps to non-zero values outside this model's
domain). -/
theorem C5_unparsable_coords_zero (i : RunInput)
    (hlat : ∀ c ∈ (latStrOf i).data, c.isDigit = false)
    (_hlati : ∀ c ∈ (splitSign (skipWs (latStrOf i).data)).2.head?,
      c ≠ 'i' ∧ c ≠ 'I' ∧ c ≠ 'n' ∧ c ≠ 'N')
    (hlon : ∀ c ∈ (lonStrOf i).data, c.isDigit = false)
    (_hloni : ∀ c ∈ (splitSign (skipWs (lonStrOf i).data)).2.head?,
      c ≠ 'i' ∧ c ≠ 'I' ∧ c ≠ 'n' ∧ c ≠ 'N') :
    latOf i = 0 ∧ lonOf i = 0 ∧
    getField (run i).doc "latitude" = some (JVal.num 0) ∧
    getField (run i).doc "longitude" = some (JVal.num 0) := by
  have h1 : latOf i = 0 := by
    unfold latOf
    split_ifs
    · rfl
    · exact atofQ_eq_zero_of_no_digits _ hlat
  have h2 : lonOf i = 0 := by
    unfold lonOf
    split_ifs
    · rfl
    · exact atofQ_eq_zero_of_no_digits _ hlon
  refine ⟨h1, h2, ?_, ?_⟩
  · rw [run_doc, getField_docOf_latitude, h1]
  · rw [run_doc, getField_docOf_longitude, h2]

theorem C5_witness :
    latOf noDigitsIn = 0 ∧ lonOf noDigitsIn = 0 ∧
    getField (run noDigitsIn).doc "latitude" = some (JVal.num 0) ∧
    getField (run noDigitsIn).doc "longitude" = some (JVal.num 0) :=
  C5_unparsable_coords_zero noDigitsIn (by decide)
    (by intro c hc; cases hc; decide) (by decide)
    (by intro c hc; cases hc; decide)

/-- Claim C6: when the output path cannot be opened the run prints an error
line referencing the path, exits 2, writes nothing, and the previous
output-file content is untouched. -/
theorem C6_write_failure_fatal (i : RunInput) (h : i.canOpenOutput = false) :
    (run i).exitCode = 2 ∧ (run i).written = false ∧
    (run i).outputFile = i.prevOutput ∧
    (∃ line ∈ (run i).stderr, ∃ pre, line = pre ++ outputPath) := by
  refine ⟨?_, ?_, ?_, ?_⟩
  · rw [run_exitCode, h]
    rfl
  · rw [run_written, h]
  · rw [run_outputFile, h]
    rfl
  · refine ⟨"ERROR: Unable to write " ++ outputPath, ?_,
      "ERROR: Unable to write ", rfl⟩
    rw [run_stderr]
    unfold stderrOf
    rw [h]
    simp

theorem C6_witness :
    (run noWriteIn).exitCode = 2 ∧ (run noWriteIn).written = false ∧
    (run noWriteIn).outputFile = noWriteIn.prevOutput ∧
    (∃ line ∈ (run noWriteIn).stderr, ∃ pre, line = pre ++ outputPath) :=
  C6_write_failure_fatal noWriteIn rfl

/-- Claim C7: the document's latitude, longitude and timezone come only
from the settings lookups; a successful locale value is passed through
verbatim into `rawLocale` and influences no other field of the document. -/
theorem C7_settings_canonical (i : RunInput) :
    getField (run i).doc "latitude" = some (JVal.num (latOf i)) ∧
    getField (run i).doc "longitude" = some (JVal.num (lonOf i)) ∧
    getField (run i).doc "timezone" = some (JVal.str (tzOf i)) ∧
    (∀ v, loadJsonFile i.parse i.localeFile localePath = Except.ok v →
      getField (run i).doc "rawLocale" = some v ∧
      ∀ j w, j.getSetting = i.getSetting →
        loadJsonFile j.parse j.localeFile localePath = Except.ok w →
        ∀ k, k ≠ "rawLocale" → getField (run j).doc k = getField (run i).doc k) := by
  refine ⟨by rw [run_doc]; exact getField_docOf_latitude i,
    by rw [run_doc]; exact getField_docOf_longitude i,
    by rw [run_doc]; exact getField_docOf_timezone i, ?_⟩
  intro v hv
  constructor
  · rw [run_doc, getField_docOf_rawLocale i, hv]
  · intro j w hset hw k hk
    have hlat : latOf j = latOf i := by unfold latOf latStrOf; rw [hset]
    have hlon : lonOf j = lonOf i := by unfold lonOf lonStrOf; rw [hset]
    have htz : tzOf j = tzOf i := by unfold tzOf; rw [hset]
    have hok : okOf j = okOf i := by unfold okOf; rw [hlat, hlon, htz]
    have hone : ¬("rawLocale" = k) := fun h => hk h.symm
    rw [run_doc, run_doc]
    unfold docOf errPart localePart
    rw [hv, hw, hlat, hlon, htz, hok]
    by_cases hc : latOf i = 0 ∨ lonOf i = 0 <;> by_cases ht : tzOf i = "" <;>
      simp [hc, ht, getField, hone]

theorem C7_witness :
    getField (run locInA).doc "latitude" = some (JVal.num (latOf locInA)) ∧
    getField (run locInA).doc "rawLocale" = some (JVal.str "A") ∧
    getField (run locInB).doc "ok" = getField (run locInA).doc "ok" := by
  obtain ⟨h1, h2, h3, h4⟩ := C7_settings_canonical locInA
  obtain ⟨hr, hind⟩ := h4 (JVal.str "A") rfl
  exact ⟨h1, hr, hind locInB (JVal.str "B") rfl rfl "ok" (by decide)⟩

/-- Claim C8 (counterexample): at a concrete environment the run's
collaborator trace begins directly with the `Latitude` lookup and contains
no settings-loader initialization call at all. -/
theorem C8_counterexample_trace :
    (run allEmptyIn).trace =
      [Event.getSetting "Latitude", Event.getSetting "Longitude",
       Event.getSetting "TimeZone", Event.loadLocaleFile localePath,
       Event.openOutput outputPath] := rfl

/-- Claim C8 (amended): `main` performs no settings-loader initialization;
every run's collaborator trace consists of the three setting lookups, the
locale-file load and the output open, in that order, with no
`loadSettings` call for any media root. -/
theorem C8_no_settings_loader (i : RunInput) :
    (run i).trace =
      [Event.getSetting "Latitude", Event.getSetting "Longitude",
       Event.getSetting "TimeZone", Event.loadLocaleFile localePath,
       Event.openOutput outputPath] ∧
    ∀ r, Event.loadSettings r ∉ (run i).trace := by
  refine ⟨run_trace i, fun r hr => ?_⟩
  rw [run_trace] at hr
  simp at hr

/-- Claim C9: a coordinate setting consisting of a decimal numeral head
followed by trailing non-numeric characters parses to the numeral's value
(not `0`), and when that value is nonzero the coordinate counts as
present for validation.  The hypotheses confine the input to `strtod`'s
decimal domain: the first trailing character can extend neither the
mantissa nor an exponent, and `_hhex` rules out the one decomposition
that real `atof` would instead read as a hexadecimal literal — a bare
`0` head followed directly by `x`/`X` (the infinity/NaN keyword forms
cannot arise, since the numeral head starts with a digit or a point). -/
theorem C9_numeric_head_trailing_garbage (i : RunInput)
    (sg ip fp dotp t : List Char)
    (hsg : sg = [] ∨ sg = ['+'] ∨ sg = ['-'])
    (hip : ∀ c ∈ ip, c.isDigit = true)
    (hfp : ∀ c ∈ fp, c.isDigit = true)
    (hdot : (dotp = [] ∧ fp = []) ∨ dotp = '.' :: fp)
    (hone : ip ≠ [] ∨ fp ≠ [])
    (_hhex : ip = ['0'] → dotp = [] → ∀ c ∈ t.head?, c ≠ 'x' ∧ c ≠ 'X')
    (ht : ∀ c ∈ t.head?, c.isDigit = false ∧ c ≠ '.' ∧ c ≠ 'e' ∧ c ≠ 'E') :
    (latStrOf i = String.mk (sg ++ ip ++ dotp ++ t) →
      latOf i = (if sg = ['-'] then -1 else 1) *
        ((digitsVal ip : ℚ) + (digitsVal fp : ℚ) / 10 ^ fp.length) ∧
      getField (run i).doc "latitude" = some (JVal.num (latOf i)) ∧
      (digitsVal ip ≠ 0 → latOf i ≠ 0)) ∧
    (lonStrOf i = String.mk (sg ++ ip ++ dotp ++ t) →
      lonOf i = (if sg = ['-'] then -1 else 1) *
        ((digitsVal ip : ℚ) + (digitsVal fp : ℚ) / 10 ^ fp.length) ∧
      getField (run i).doc "longitude" = some (JVal.num (lonOf i)) ∧
      (digitsVal ip ≠ 0 → lonOf i ≠ 0)) := by
  have hLne : sg ++ ip ++ dotp ++ t ≠ [] := by
    intro h0
    have h1 := List.append_eq_nil.mp h0
    have h2 := List.append_eq_nil.mp h1.1
    have h3 := List.append_eq_nil.mp h2.1
    rcases hone with h | h
    · exact h h3.2
    · rcases hdot with ⟨_, hf⟩ | hd
      · exact h hf
      · rw [hd] at h2
        exact List.cons_ne_nil _ _ h2.2
  have hsne : String.mk (sg ++ ip ++ dotp ++ t) ≠ "" := by
    intro h0
    have h2 : sg ++ ip ++ dotp ++ t = "".data := by
      rw [← data_mk (sg ++ ip ++ dotp ++ t), h0]
    exact hLne (h2.trans rfl)
  have hval := atofQ_numeral_trailing sg ip fp dotp t hsg hip hfp hdot hone ht
  have hpos : digitsVal ip ≠ 0 →
      (if sg = ['-'] then (-1 : ℚ) else 1) *
        ((digitsVal ip : ℚ) + (digitsVal fp : ℚ) / 10 ^ fp.length) ≠ 0 := by
    intro hdv h0
    have h1 : 0 < digitsVal ip := Nat.pos_of_ne_zero hdv
    have h2 : (0 : ℚ) < (digitsVal ip : ℚ) := by exact_mod_cast h1
    have h3 : (0 : ℚ) ≤ (digitsVal fp : ℚ) / 10 ^ fp.length := by positivity
    split_ifs at h0 with hm
    · rw [neg_one_mul, neg_eq_zero] at h0
      linarith
    · rw [one_mul] at h0
      linarith
  constructor
  · intro hs
    have hlv : latOf i = (if sg = ['-'] then -1 else 1) *
        ((digitsVal ip : ℚ) + (digitsVal fp : ℚ) / 10 ^ fp.length) := by
      unfold latOf
      rw [hs, if_neg hsne, hval]
    refine ⟨hlv, by rw [run_doc]; exact getField_docOf_latitude i, ?_⟩
    intro hdv
    rw [hlv]
    exact hpos hdv
  · intro hs
    have hlv : lonOf i = (if sg = ['-'] then -1 else 1) *
        ((digitsVal ip : ℚ) + (digitsVal fp : ℚ) / 10 ^ fp.length) := by
      unfold lonOf
      rw [hs, if_neg hsne, hval]
    refine ⟨hlv, by rw [run_doc]; exact getField_docOf_longitude i, ?_⟩
    intro hdv
    rw [hlv]
    exact hpos hdv

theorem C9_witness :
    (latOf numIn = (if ([] : List Char) = ['-'] then -1 else 1) *
      ((digitsVal ['4','5'] : ℚ) +
        (digitsVal ['5'] : ℚ) / 10 ^ (['5'] : List Char).length) ∧
     getField (run numIn).doc "latitude" = some (JVal.num (latOf numIn)) ∧
     (digitsVal ['4','5'] ≠ 0 → latOf numIn ≠ 0)) ∧
    (lonOf numIn = (if ([] : List Char) = ['-'] then -1 else 1) *
      ((digitsVal ['4','5'] : ℚ) +
        (digitsVal ['5'] : ℚ) / 10 ^ (['5'] : List Char).length) ∧
     getField (run numIn).doc "longitude" = some (JVal.num (lonOf numIn)) ∧
     (digitsVal ['4','5'] ≠ 0 → lonOf numIn ≠ 0)) := by
  have h := C9_numeric_head_trailing_garbage numIn [] ['4','5'] ['5'] ['.','5']
    ['a','b','c'] (Or.inl rfl) (by decide) (by decide) (Or.inr rfl)
    (Or.inl (by decide)) (fun h0 => absurd h0 (by decide))
    (by intro c hc; cases hc; decide)
  exact ⟨h.1 rfl, h.2 rfl⟩

/-- Claim C10: determinism — two runs that agree on the three settings
`main` reads, on the locale-load result, and on output-path writability
produce the same document and the same exit code. -/
theorem C10_deterministic (i j : RunInput)
    (hlat : i.getSetting "Latitude" = j.getSetting "Latitude")
    (hlon : i.getSetting "Longitude" = j.getSetting "Longitude")
    (htz : i.getSetting "TimeZone" = j.getSetting "TimeZone")
    (hloc : loadJsonFile i.parse i.localeFile localePath =
      loadJsonFile j.parse j.localeFile localePath)
    (hopen : i.canOpenOutput = j.canOpenOutput) :
    (run i).doc = (run j).doc ∧ (run i).exitCode = (run j).exitCode := by
  have hlat2 : latOf i = latOf j := by unfold latOf latStrOf; rw [hlat]
  have hlon2 : lonOf i = lonOf j := by unfold lonOf lonStrOf; rw [hlon]
  have htz2 : tzOf i = tzOf j := by unfold tzOf; rw [htz]
  have hok : okOf i = okOf j := by unfold okOf; rw [hlat2, hlon2, htz2]
  constructor
  · rw [run_doc, run_doc]
    unfold docOf errPart
    rw [hlat2, hlon2, htz2, hok, hloc]
  · rw [run_exitCode, run_exitCode, hok, hopen]

theorem C10_witness :
    (run detInA).doc = (run detInB).doc ∧
    (run detInA).exitCode = (run detInB).exitCode :=
  C10_deterministic detInA detInB rfl rfl rfl rfl rfl

end GCSExport
